import Mathlib

/-!
Shallow embedding of the credential store and submission store of the
Cometa input portal (sources: `Main.py`, `main.py`, `auth.py`).

Modelling conventions:
* A pandas `users.csv` DataFrame restricted to the four canonical columns is
  a `List UserRec`; the raw, possibly malformed CSV shape handled by
  `load_users` is modelled separately as `UsersCsv` (cells are `Option String`,
  `none` standing for a NaN cell).
* The password hash (`bcrypt` in `Main.py`, `sha256` in `main.py`/`auth.py`)
  is abstracted as a parameter `hashFn : String → String`; verification is
  hash-equality as in `main.py`/`auth.py` (`_verify_password`).
* The filesystem touched by the submission store is an association list from
  path segments to file contents; a write prepends and a read takes the most
  recent entry, which models `open(path, "w")` overwrite semantics.
* Python `str.strip()` is modelled for ASCII whitespace (the characters the
  sources can actually meet in company/user names).
-/

namespace Cometa

/-- Decidable equality for `Except`, so results of fallible operations can be
checked on concrete inputs. -/
instance {ε α : Type} [DecidableEq ε] [DecidableEq α] : DecidableEq (Except ε α) := fun a b =>
  match a, b with
  | .ok x, .ok y =>
    if h : x = y then .isTrue (by rw [h]) else .isFalse (by intro hc; cases hc; exact h rfl)
  | .error x, .error y =>
    if h : x = y then .isTrue (by rw [h]) else .isFalse (by intro hc; cases hc; exact h rfl)
  | .ok _, .error _ => .isFalse (by intro hc; cases hc)
  | .error _, .ok _ => .isFalse (by intro hc; cases hc)

/-- ASCII whitespace stripped by Python `str.strip()`. -/
def isPyWhitespace (ch : Char) : Bool :=
  ch == ' ' || ch == '\t' || ch == '\n' || ch == '\r' ||
  ch == Char.ofNat 11 || ch == Char.ofNat 12

/-- Model of Python `str.strip()`: drop leading and trailing whitespace. -/
def pyStrip (s : String) : String :=
  ⟨((s.data.dropWhile isPyWhitespace).reverse.dropWhile isPyWhitespace).reverse⟩

/-- Characters kept by the company sanitizer `re.sub(r"[^a-zA-Z0-9_-]+", "_", ·)`
(`company_dir` in `Main.py`, `safe_name` in `main.py`). -/
def allowedCompanyChar (ch : Char) : Bool :=
  ch.isAlpha || ch.isDigit || ch == '_' || ch == '-'

/-- Characters kept by the filename sanitizer `re.sub(r"[^a-zA-Z0-9._-]+", "_", ·)`
(`save_raw_upload` in `Main.py`). -/
def allowedFileChar (ch : Char) : Bool :=
  ch.isAlpha || ch.isDigit || ch == '.' || ch == '_' || ch == '-'

/-- Model of `re.sub(r"[^allowed]+", "_", s)`: every maximal run of disallowed
characters is replaced by a single underscore.  The boolean flag records
whether we are inside a disallowed run whose underscore was already emitted. -/
def squashRuns (allowed : Char → Bool) : List Char → Bool → List Char
  | [], _ => []
  | ch :: rest, inRun =>
    if allowed ch then ch :: squashRuns allowed rest false
    else if inRun then squashRuns allowed rest true
    else '_' :: squashRuns allowed rest true

/-- Company sanitizer of `Main.py` (`company_dir` / `save_raw_upload`) and
`main.py` (`safe_name`): `re.sub(r"[^a-zA-Z0-9_-]+", "_", company.strip())`. -/
def safe_name (s : String) : String :=
  ⟨squashRuns allowedCompanyChar (pyStrip s).data false⟩

/-- Filename sanitizer of `save_raw_upload` in `Main.py`:
`re.sub(r"[^a-zA-Z0-9._-]+", "_", uploaded_file.name)` (no strip). -/
def sanitize_filename (s : String) : String :=
  ⟨squashRuns allowedFileChar s.data false⟩

/-- Modelled from the spec: sanitization described as replacing EVERY character
outside `[A-Za-z0-9_-]` with `"_"` (one underscore per character, no strip).
Kept separate from `safe_name` so the two can be compared. -/
def specSanitizeCompany (s : String) : String :=
  ⟨s.data.map (fun ch => if allowedCompanyChar ch then ch else '_')⟩

/-- Modelled from the spec: filename sanitization described as replacing EVERY
character outside `[A-Za-z0-9._-]` with `"_"` (one underscore per character). -/
def specSanitizeFilename (s : String) : String :=
  ⟨s.data.map (fun ch => if allowedFileChar ch then ch else '_')⟩

/-- One row of `users.csv` restricted to the canonical columns. -/
structure UserRec where
  company : String
  username : String
  password_hash : String
  role : String
deriving DecidableEq, Repr

/-- The credential registry: the full ordered contents of `users.csv`. -/
abbrev Registry := List UserRec

/-- The admin row appended by `ensure_admin` / `bootstrap_admin`. -/
def adminRecord : UserRec := ⟨"ALL", "admin", "", "admin"⟩

/-- `ensure_admin` of `auth.py` (identical logic to `bootstrap_admin` in
`Main.py` and `ensure_admin_exists` in `main.py`): if no row has
username `"admin"` and role `"admin"`, append `adminRecord` and persist. -/
def ensure_admin (df : Registry) : Registry :=
  if df.any (fun r => r.username == "admin" && r.role == "admin") then df
  else df ++ [adminRecord]

/-- Authentication errors distinguishable in the login handlers: the three
distinct error messages of `login_screen` (`Main.py` lines 194-207,
`main.py` lines 116-128). -/
inductive AuthErr where
  | missingInput
  | userNotFound
  | invalidCredentials
deriving DecidableEq, Repr

/-- The identity stored into `st.session_state["auth"]` on a successful login. -/
structure Identity where
  username : String
  role : String
  company : String
deriving DecidableEq, Repr

/-- The login handler of `login_screen` (`main.py` lines 116-135; `Main.py`
lines 194-215 behaves identically because its extra `not hashed` guard also
lands on the same "Contraseña incorrecta" branch).  `hashFn` abstracts the
password digest; verification is `_verify_password`, i.e. hash equality. -/
def authenticate (hashFn : String → String) (df : Registry) (u p : String) :
    Except AuthErr Identity :=
  if u == "" || p == "" then .error .missingInput
  else
    match df.find? (fun r => r.username == u) with
    | none => .error .userNotFound
    | some r =>
      if hashFn p == r.password_hash then .ok ⟨u, r.role, r.company⟩
      else .error .invalidCredentials

/-- Client-creation errors distinguishable in `admin_user_mgmt` (`Main.py`
lines 233-245): the four distinct error messages, in check order. -/
inductive CreateErr where
  | missingField
  | passwordMismatch
  | weakPassword
  | duplicateUsername
deriving DecidableEq, Repr

/-- The "Crear usuario" handler of `admin_user_mgmt` in `Main.py` (lines
233-254): empty company/username, then password mismatch, then length < 8,
then duplicate check `(df["username"] == username).any()` on the RAW
username; on success appends a `role="client"` row storing the STRIPPED
company and username and the password hash. -/
def create_client_user (hashFn : String → String) (df : Registry)
    (company username pass1 pass2 : String) : Except CreateErr Registry :=
  if company == "" || username == "" then .error .missingField
  else if pass1 != pass2 then .error .passwordMismatch
  else if pass1.length < 8 then .error .weakPassword
  else if df.any (fun r => r.username == username) then .error .duplicateUsername
  else .ok (df ++ [⟨pyStrip company, pyStrip username, hashFn pass1, "client"⟩])

/-- Raw CSV shape of `users.csv` as read by pandas: a header and rows of
cells, where `none` is a NaN cell.  Rows of a malformed store may be shorter
or longer than the header. -/
structure UsersCsv where
  cols : List String
  rows : List (List (Option String))
deriving DecidableEq, Repr

/-- The canonical column set of the registry. -/
def canonicalCols : List String := ["company", "username", "password_hash", "role"]

/-- One step of the column-repair loop of `load_users`: `if col not in
df.columns: df[col] = ""` appends the column with empty-string cells. -/
def addColIfMissing (f : UsersCsv) (c : String) : UsersCsv :=
  if c ∈ f.cols then f
  else ⟨f.cols ++ [c], f.rows.map (fun row => row ++ [some ""])⟩

/-- The column-repair loop of `load_users` over the canonical columns. -/
def ensureCols (f : UsersCsv) : UsersCsv :=
  canonicalCols.foldl addColIfMissing f

/-- Model of `df.fillna("")`: every NaN cell becomes the empty string. -/
def fillna (f : UsersCsv) : UsersCsv :=
  ⟨f.cols, f.rows.map (fun row => row.map (fun cell => some (cell.getD "")))⟩

/-- `load_users` of `auth.py` (lines 11-21).  The argument is the persisted
store (`none` = `users.csv` does not exist).  Returns the normalized
DataFrame together with the store as persisted after the call: a missing
store is initialized to the empty registry with the canonical columns and
written back before reading. -/
def load_users (store : Option UsersCsv) : UsersCsv × UsersCsv :=
  match store with
  | none =>
    let empty : UsersCsv := ⟨canonicalCols, []⟩
    (fillna (ensureCols empty), empty)
  | some f => (fillna (ensureCols f), f)

/-- The `meta` object written by `save_submission` in `Main.py` (lines
125-133); `user` is the spec's "actor", `(year, quarter, month_in_q)` its
"period", `submitted_at_utc` its "submitted_at". -/
structure SubMeta where
  company : String
  user : String
  year : Int
  quarter : String
  month_in_q : Int
  submitted_at_utc : String
  schema_version : String
deriving DecidableEq, Repr

/-- The JSON record `{"meta": meta, "metrics": payload}` written by
`save_submission` in `Main.py`; metric values are left polymorphic. -/
structure Submission (α : Type) where
  meta : SubMeta
  metrics : List (String × α)
deriving DecidableEq, Repr

/-- `company_dir` of `Main.py` (line 112): `SUB_DIR / safe(company)`, with
`SUB_DIR = data/submissions`, as path segments. -/
def company_dir (company : String) : List String :=
  ["data", "submissions", safe_name company]

/-- `build_period_path` of `Main.py` (line 116):
`company_dir(company) / str(year) / quarter / f"month_{month_in_q}"`. -/
def build_period_path (company : String) (year : Int) (quarter : String)
    (month_in_q : Int) : List String :=
  company_dir company ++ [toString year, quarter, "month_" ++ toString month_in_q]

/-- The two artifacts computed by one `save_submission` call (`Main.py`
lines 120-144): their paths and their structured contents. -/
structure SavedSubmission (α : Type) where
  dir : List String
  jsonPath : List String
  jsonContent : Submission α
  csvPath : List String
  csvContent : List (String × α)
deriving DecidableEq, Repr

/-- Pure core of `save_submission` in `Main.py` (lines 120-144), with the
UTC timestamp token `ts` passed in: derives the period directory, and builds
the JSON record `{"meta": {...}, "metrics": payload}` at
`submission_{ts}.json` and the CSV rows `[{"metric": k, "value": v}, ...]`
at `submission_{ts}.csv`. -/
def save_submission (α : Type) (company user : String) (year : Int)
    (quarter : String) (month_in_q : Int) (payload : List (String × α))
    (ts : String) : SavedSubmission α :=
  let p := build_period_path company year quarter month_in_q
  { dir := p
    jsonPath := p ++ ["submission_" ++ ts ++ ".json"]
    jsonContent :=
      { meta := ⟨company, user, year, quarter, month_in_q, ts, "mvp-1"⟩
        metrics := payload }
    csvPath := p ++ ["submission_" ++ ts ++ ".csv"]
    csvContent := payload.map (fun kv => (kv.1, kv.2)) }

/-- Contents a store operation can write: a JSON submission record, a CSV
table, or the raw bytes of an upload. -/
inductive FileContent (α : Type) where
  | json : Submission α → FileContent α
  | csv : List (String × α) → FileContent α
  | raw : List UInt8 → FileContent α
deriving DecidableEq, Repr

/-- The filesystem as an association list from path segments to contents;
the most recent write of a path shadows older entries. -/
abbrev FS (α : Type) := List (List String × FileContent α)

/-- A write with `open(path, "w")` / `open(path, "wb")` semantics: the new
entry shadows any previous content at the same path. -/
def fsWrite (fs : FS α) (path : List String) (content : FileContent α) : FS α :=
  (path, content) :: fs

/-- Read a path: the most recently written content, if any. -/
def fsRead (fs : FS α) (path : List String) : Option (FileContent α) :=
  match fs with
  | [] => none
  | (q, c) :: rest => if path = q then some c else fsRead rest path

/-- One `save_submission` call acting on the filesystem: the JSON artifact
is written first, then the CSV artifact (`Main.py` lines 136-142). -/
def run_save_submission (α : Type) (fs : FS α) (company user : String)
    (year : Int) (quarter : String) (month_in_q : Int)
    (payload : List (String × α)) (ts : String) : FS α :=
  let s := save_submission α company user year quarter month_in_q payload ts
  fsWrite (fsWrite fs s.jsonPath (.json s.jsonContent)) s.csvPath (.csv s.csvContent)

/-- An uploaded file as `save_raw_upload` sees it: a name and its bytes. -/
structure UploadedFile where
  name : String
  bytes : List UInt8
deriving DecidableEq, Repr

/-- Pure core of `save_raw_upload` in `Main.py` (lines 146-159), timestamp
passed in: the destination path
`RAW_DIR / safe(company) / year / quarter / month_<m> / {ts}__{sanitized name}`
(`RAW_DIR = data/raw_uploads`) together with the bytes written there. -/
def save_raw_upload (company user : String) (year : Int) (quarter : String)
    (month_in_q : Int) (file : UploadedFile) (ts : String) :
    List String × List UInt8 :=
  let dest_dir :=
    ["data", "raw_uploads", safe_name company] ++
      [toString year, quarter, "month_" ++ toString month_in_q]
  (dest_dir ++ [ts ++ "__" ++ sanitize_filename file.name], file.bytes)

/-- Concrete stand-in digest used only to instantiate the hash parameter in
concrete evaluations; like a real digest it never returns `""` and is
injective on the inputs it meets there. -/
def demoHash (s : String) : String := "#" ++ s

/-- Whether a fallible operation succeeded. -/
def succeeded {ε α : Type} : Except ε α → Bool
  | .ok _ => true
  | .error _ => false

/-! ### Helper lemmas -/

/-- Every character emitted by `squashRuns` satisfies the allow-list,
provided the underscore itself is allowed. -/
lemma mem_squashRuns_allowed {allowed : Char → Bool} (hu : allowed '_' = true) :
    ∀ (l : List Char) (b : Bool) (ch : Char), ch ∈ squashRuns allowed l b → allowed ch = true := by
  intro l
  induction l with
  | nil => intro b ch h; simp [squashRuns] at h
  | cons a as ih =>
    intro b ch h
    by_cases ha : allowed a = true
    · simp only [squashRuns, ha, if_true] at h
      rcases List.mem_cons.mp h with rfl | h'
      · exact ha
      · exact ih false ch h'
    · simp only [squashRuns, ha, if_false] at h
      cases b with
      | true => simpa using ih true ch (by simpa using h)
      | false =>
        rcases List.mem_cons.mp (by simpa using h) with rfl | h'
        · exact hu
        · exact ih true ch h'

/-- `squashRuns` leaves a list of allowed characters unchanged. -/
lemma squashRuns_of_allowed {allowed : Char → Bool} :
    ∀ l : List Char, (∀ ch ∈ l, allowed ch = true) → squashRuns allowed l false = l := by
  intro l
  induction l with
  | nil => intro _; rfl
  | cons a as ih =>
    intro h
    have ha : allowed a = true := h a (List.mem_cons_self a as)
    simp only [squashRuns, ha, if_true]
    rw [ih (fun ch hc => h ch (List.mem_cons_of_mem a hc))]

/-- `dropWhile` is the identity on a list without a matching head. -/
lemma dropWhile_eq_self_of_none {p : Char → Bool} (l : List Char)
    (h : ∀ ch ∈ l, p ch = false) : l.dropWhile p = l := by
  cases l with
  | nil => rfl
  | cons a as => simp [List.dropWhile_cons, h a (List.mem_cons_self a as)]

/-- Stripping a string with no whitespace characters is the identity. -/
lemma pyStrip_of_no_whitespace (s : String)
    (h : ∀ ch ∈ s.data, isPyWhitespace ch = false) : pyStrip s = s := by
  unfold pyStrip
  rw [dropWhile_eq_self_of_none s.data h,
    dropWhile_eq_self_of_none s.data.reverse (fun ch hc => h ch (List.mem_reverse.mp hc)),
    List.reverse_reverse]

/-- An allow-listed company character is never Python whitespace. -/
lemma not_whitespace_of_allowedCompany {ch : Char} (h : allowedCompanyChar ch = true) :
    isPyWhitespace ch = false := by
  cases hw : isPyWhitespace ch
  · rfl
  · exfalso
    have hcases : ((((ch = ' ' ∨ ch = '\t') ∨ ch = '\n') ∨ ch = '\r') ∨
        ch = Char.ofNat 11) ∨ ch = Char.ofNat 12 := by
      simpa [isPyWhitespace] using hw
    rcases hcases with ((((rfl | rfl) | rfl) | rfl) | rfl) | rfl <;> revert h <;> decide

/-- Cancel a common appended suffix of strings. -/
lemma str_append_right_cancel {a b t : String} (h : a ++ t = b ++ t) : a = b := by
  apply String.ext
  have h2 := congrArg String.data h
  simp only [String.data_append] at h2
  exact List.append_cancel_right h2

/-- Cancel a common prepended prefix of strings. -/
lemma str_append_left_cancel {s a b : String} (h : s ++ a = s ++ b) : a = b := by
  apply String.ext
  have h2 := congrArg String.data h
  simp only [String.data_append] at h2
  exact List.append_cancel_left h2

/-- A string ending in `".json"` never equals one ending in `".csv"`. -/
lemma str_json_ne_csv (a b : String) : a ++ ".json" ≠ b ++ ".csv" := by
  intro h
  have h2 : a.data ++ ['.', 'j', 's', 'o', 'n'] = b.data ++ ['.', 'c', 's', 'v'] := by
    have h3 := congrArg String.data h
    simp only [String.data_append] at h3
    exact h3
  have h4 := congrArg List.reverse h2
  rw [List.reverse_append, List.reverse_append] at h4
  have h5 : (some 'n' : Option Char) = some 'v' := congrArg List.head? h4
  exact absurd h5 (by decide)

/-- The JSON artifact name determines the timestamp. -/
lemma submission_json_name_inj {ts1 ts2 : String}
    (h : "submission_" ++ ts1 ++ ".json" = "submission_" ++ ts2 ++ ".json") : ts1 = ts2 :=
  str_append_left_cancel (str_append_right_cancel h)

/-- The CSV artifact name determines the timestamp. -/
lemma submission_csv_name_inj {ts1 ts2 : String}
    (h : "submission_" ++ ts1 ++ ".csv" = "submission_" ++ ts2 ++ ".csv") : ts1 = ts2 :=
  str_append_left_cancel (str_append_right_cancel h)

/-- Paths sharing a directory differ exactly when their filenames differ. -/
lemma path_ne_of_filename_ne {dir : List String} {a b : String} (h : a ≠ b) :
    dir ++ [a] ≠ dir ++ [b] := by
  intro hp
  exact h (by simpa using List.append_cancel_left hp)

/-- Reading a path right after writing it yields the written content. -/
lemma fsRead_write_self {α : Type} (fs : FS α) (p : List String) (c : FileContent α) :
    fsRead (fsWrite fs p c) p = some c := by
  simp [fsRead, fsWrite]

/-- Writing one path leaves reads of a different path unchanged. -/
lemma fsRead_write_other {α : Type} (fs : FS α) {p q : List String} (c : FileContent α)
    (h : p ≠ q) : fsRead (fsWrite fs q c) p = fsRead fs p := by
  simp [fsRead, fsWrite, h]

/-! ### Claim theorems -/

/-- C1: starting from a fresh (empty) registry, calling the admin bootstrap
any number `N ≥ 1` of times leaves the registry equal to the single record
`{company := "ALL", username := "admin", password_hash := "", role := "admin"}`,
and in particular with exactly one admin row: no call after the first
appends a second one. -/
theorem ensure_admin_bootstrap_idempotent (N : ℕ) (hN : 1 ≤ N) :
    ensure_admin^[N] [] = [⟨"ALL", "admin", "", "admin"⟩] ∧
    (ensure_admin^[N] []).countP
      (fun r => r.username == "admin" && r.role == "admin") = 1 := by
  have hfix : ∀ j : ℕ, ensure_admin^[j] [adminRecord] = [adminRecord] := by
    intro j
    induction j with
    | zero => rfl
    | succ n ih =>
      rw [Function.iterate_succ_apply]
      have h1 : ensure_admin [adminRecord] = [adminRecord] := by decide
      rw [h1, ih]
  cases N with
  | zero => omega
  | succ k =>
    have hstep : ensure_admin^[k + 1] [] = [adminRecord] := by
      rw [Function.iterate_succ_apply]
      have h0 : ensure_admin [] = [adminRecord] := by decide
      rw [h0, hfix k]
    refine ⟨hstep, ?_⟩
    rw [hstep]
    decide

/-- Witness for C1 at `N = 3`. -/
theorem ensure_admin_bootstrap_idempotent_witness :
    ensure_admin^[3] [] = [⟨"ALL", "admin", "", "admin"⟩] ∧
    (ensure_admin^[3] []).countP
      (fun r => r.username == "admin" && r.role == "admin") = 1 :=
  ensure_admin_bootstrap_idempotent 3 (by decide)

/-- C5 (amended): the company sanitizer is a total function whose output
contains only allow-listed characters and which is idempotent; it first
strips the company and then replaces each maximal run of disallowed
characters with a single underscore (the definition of `safe_name`), and
`build_period_path` composes the segments
`[sanitized_company, year, quarter, "month_" ++ month_in_quarter]` in that
order under the submissions root. -/
theorem build_period_path_sanitized (c : String) (y : Int) (q : String) (m : Int) :
    (safe_name c).data.all allowedCompanyChar = true ∧
    safe_name (safe_name c) = safe_name c ∧
    build_period_path c y q m =
      ["data", "submissions"] ++
        [safe_name c, toString y, q, "month_" ++ toString m] := by
  have hall : ∀ ch ∈ (safe_name c).data, allowedCompanyChar ch = true := by
    intro ch hc
    exact mem_squashRuns_allowed (by decide) _ false ch hc
  refine ⟨List.all_eq_true.mpr hall, ?_, rfl⟩
  have h1 : pyStrip (safe_name c) = safe_name c :=
    pyStrip_of_no_whitespace _ (fun ch hc => not_whitespace_of_allowedCompany (hall ch hc))
  calc safe_name (safe_name c)
      = ⟨squashRuns allowedCompanyChar (pyStrip (safe_name c)).data false⟩ := rfl
    _ = ⟨squashRuns allowedCompanyChar (safe_name c).data false⟩ := by rw [h1]
    _ = ⟨(safe_name c).data⟩ := by rw [squashRuns_of_allowed (safe_name c).data hall]
    _ = safe_name c := rfl

/-- C5 counterexample: the code does not replace every disallowed character
one-for-one; it strips the input and collapses each run of disallowed
characters into one underscore, so on `" A  B"` it differs from the
spec-described per-character replacement. -/
theorem safe_name_not_per_char :
    safe_name " A  B" = "A_B" ∧ specSanitizeCompany " A  B" = "_A__B" ∧
    safe_name " A  B" ≠ specSanitizeCompany " A  B" := by decide

/-- C8 (amended): `save_raw_upload` stores the file under the raw-uploads
root for the company and period at the name
`{timestamp}__{sanitized_filename}`, where the sanitizer replaces each
maximal run of characters outside `[A-Za-z0-9._-]` with a single underscore
so the stored name is entirely allow-listed, and the stored content is
byte-for-byte the input bytes, whatever the original filename contains. -/
theorem save_raw_upload_preserves_bytes (c u : String) (y : Int) (q : String)
    (m : Int) (file : UploadedFile) (ts : String) :
    (save_raw_upload c u y q m file ts).2 = file.bytes ∧
    (save_raw_upload c u y q m file ts).1 =
      ["data", "raw_uploads", safe_name c, toString y, q,
        "month_" ++ toString m, ts ++ "__" ++ sanitize_filename file.name] ∧
    (sanitize_filename file.name).data.all allowedFileChar = true := by
  refine ⟨rfl, rfl, List.all_eq_true.mpr ?_⟩
  intro ch hc
  exact mem_squashRuns_allowed (by decide) _ false ch hc

/-- C8 counterexample: the filename sanitizer collapses each run of
disallowed characters into one underscore, so the stored name of
`"a  b.pdf"` is not the per-character replacement the claim describes. -/
theorem sanitize_filename_not_per_char :
    (save_raw_upload "Acme" "u" 2024 "Q1" 1 ⟨"a  b.pdf", [1, 2, 3]⟩ "TS").1
      = ["data", "raw_uploads", "Acme", "2024", "Q1", "month_1", "TS__a_b.pdf"] ∧
    specSanitizeFilename "a  b.pdf" = "a__b.pdf" ∧
    ("TS__a_b.pdf" : String) ≠ "TS" ++ "__" ++ specSanitizeFilename "a  b.pdf" := by
  decide

/-- Helper: the stand-in digest, like a real digest, is never empty. -/
lemma demoHash_ne_empty (s : String) : demoHash s ≠ "" := by
  intro h
  have h2 : ('#' :: s.data) = ([] : List Char) := congrArg String.data h
  exact List.cons_ne_nil _ _ h2

/-- C2 (amended): when a record with exactly the requested username is
present and the earlier validations pass, creation is rejected with the
duplicate-username error and nothing is appended; starting from a registry
without the username (already in stripped form), the first call appends one
record and the second call with the same username is rejected, so the size
grows by 1, not 2, and exactly one record carries the username.  (The
unrestricted uniqueness invariant fails: see the counterexample, the
duplicate check compares the raw username but the stored username is
stripped.) -/
theorem create_client_user_duplicate_unique (hashFn : String → String)
    (df : Registry) (c u p : String) (hc : c ≠ "") (hu : u ≠ "")
    (hlen : ¬ p.length < 8) (hstrip : pyStrip u = u)
    (hfresh : df.countP (fun r => r.username == u) = 0) :
    create_client_user hashFn df c u p p
      = .ok (df ++ [(⟨pyStrip c, u, hashFn p, "client"⟩ : UserRec)]) ∧
    create_client_user hashFn (df ++ [(⟨pyStrip c, u, hashFn p, "client"⟩ : UserRec)]) c u p p
      = .error .duplicateUsername ∧
    (df ++ [(⟨pyStrip c, u, hashFn p, "client"⟩ : UserRec)]).length = df.length + 1 ∧
    (df ++ [(⟨pyStrip c, u, hashFn p, "client"⟩ : UserRec)]).countP
      (fun r => r.username == u) = 1 := by
  have hcb : (c == "") = false := by simpa using hc
  have hub : (u == "") = false := by simpa using hu
  have hany : df.any (fun r => r.username == u) = false := by
    rw [List.any_eq_false]
    intro r hr
    simpa using List.countP_eq_zero.mp hfresh r hr
  have hany2 : (df ++ [(⟨pyStrip c, u, hashFn p, "client"⟩ : UserRec)]).any
      (fun r => r.username == u) = true := by
    simp [List.any_append]
  refine ⟨?_, ?_, by simp, ?_⟩
  · simp [create_client_user, hcb, hub, hlen, hany, hstrip]
  · simp [create_client_user, hcb, hub, hlen, hany2]
  · rw [List.countP_append, hfresh]
    simp

/-- Witness for C2 at a fresh registry and the username `"x"`. -/
theorem create_client_user_duplicate_unique_witness :
    ("C" : String) ≠ "" ∧ ("x" : String) ≠ "" ∧ ¬ ("password1" : String).length < 8 ∧
    pyStrip "x" = "x" ∧ ([] : Registry).countP (fun r => r.username == "x") = 0 ∧
    (create_client_user demoHash [] "C" "x" "password1" "password1"
        = .ok ([] ++ [(⟨pyStrip "C", "x", demoHash "password1", "client"⟩ : UserRec)]) ∧
      create_client_user demoHash
          ([] ++ [(⟨pyStrip "C", "x", demoHash "password1", "client"⟩ : UserRec)]) "C" "x" "password1" "password1"
        = .error .duplicateUsername ∧
      ([] ++ [(⟨pyStrip "C", "x", demoHash "password1", "client"⟩ : UserRec)] : Registry).length
        = ([] : Registry).length + 1 ∧
      ([] ++ [(⟨pyStrip "C", "x", demoHash "password1", "client"⟩ : UserRec)] : Registry).countP
        (fun r => r.username == "x") = 1) :=
  ⟨by decide, by decide, by decide, by decide, by decide,
    create_client_user_duplicate_unique demoHash [] "C" "x" "password1"
      (by decide) (by decide) (by decide) (by decide) (by decide)⟩

/-- C2 counterexample: the duplicate check compares the RAW requested
username, but records store the STRIPPED username, so after creating `"x"`
a second creation with `" x"` succeeds and two persisted records share the
stored username `"x"` — refuting "no two persisted records ever share the
same stored username". -/
theorem create_client_user_duplicate_broken_by_strip :
    create_client_user demoHash [] "C" "x" "password1" "password1"
      = .ok [⟨"C", "x", "#password1", "client"⟩] ∧
    create_client_user demoHash [⟨"C", "x", "#password1", "client"⟩]
        "C" " x" "password1" "password1"
      = .ok [⟨"C", "x", "#password1", "client"⟩, ⟨"C", "x", "#password1", "client"⟩] ∧
    ([⟨"C", "x", "#password1", "client"⟩,
      ⟨"C", "x", "#password1", "client"⟩] : Registry).countP
      (fun r => r.username == "x") = 2 := by
  decide

/-- C3 (amended): `authenticate` fails with the user-not-found error when no
record carries the username; when the first matching record's stored hash is
empty it fails with the SAME invalid-credentials error as a wrong password
against a non-empty hash — the code has no distinct password-unset outcome
at the authenticate level (the empty-hash signal only drives the pre-login
admin setup screen). -/
theorem authenticate_no_password_unset (hashFn : String → String) (df : Registry)
    (u p : String) (hu : u ≠ "") (hp : p ≠ "") :
    (df.find? (fun r => r.username == u) = none →
      authenticate hashFn df u p = .error .userNotFound) ∧
    (∀ r : UserRec, df.find? (fun r => r.username == u) = some r →
      hashFn p ≠ r.password_hash →
      authenticate hashFn df u p = .error .invalidCredentials) ∧
    (∀ r : UserRec, df.find? (fun r => r.username == u) = some r →
      r.password_hash = "" → (∀ s, hashFn s ≠ "") →
      authenticate hashFn df u p = .error .invalidCredentials) := by
  have hub : (u == "") = false := by simpa using hu
  have hpb : (p == "") = false := by simpa using hp
  refine ⟨?_, ?_, ?_⟩
  · intro hfind
    simp [authenticate, hub, hpb, hfind]
  · intro r hfind hne
    simp [authenticate, hub, hpb, hfind, beq_iff_eq, hne]
  · intro r hfind hhash hne
    have hne2 : hashFn p ≠ r.password_hash := by rw [hhash]; exact hne p
    simp [authenticate, hub, hpb, hfind, beq_iff_eq, hne2]

/-- Witness for C3: user-not-found, wrong non-empty hash, and empty stored
hash, each at concrete inputs. -/
theorem authenticate_no_password_unset_witness :
    ("admin" : String) ≠ "" ∧ ("longpassword" : String) ≠ "" ∧
    authenticate demoHash [] "admin" "longpassword" = .error .userNotFound ∧
    authenticate demoHash [⟨"ALL", "admin", "#rightpw", "admin"⟩] "admin" "longpassword"
      = .error .invalidCredentials ∧
    authenticate demoHash [⟨"ALL", "admin", "", "admin"⟩] "admin" "longpassword"
      = .error .invalidCredentials := by
  refine ⟨by decide, by decide, ?_, ?_, ?_⟩
  · exact (authenticate_no_password_unset demoHash [] "admin" "longpassword"
      (by decide) (by decide)).1 rfl
  · exact (authenticate_no_password_unset demoHash [⟨"ALL", "admin", "#rightpw", "admin"⟩]
      "admin" "longpassword" (by decide) (by decide)).2.1
      ⟨"ALL", "admin", "#rightpw", "admin"⟩ rfl (by decide)
  · exact (authenticate_no_password_unset demoHash [⟨"ALL", "admin", "", "admin"⟩]
      "admin" "longpassword" (by decide) (by decide)).2.2
      ⟨"ALL", "admin", "", "admin"⟩ rfl rfl demoHash_ne_empty

/-- C3 counterexample: an empty stored hash and a wrong non-empty stored
hash produce the SAME `invalidCredentials` outcome, so no distinguishable
password-unset failure exists. -/
theorem authenticate_password_unset_indistinct :
    authenticate demoHash [⟨"ALL", "admin", "", "admin"⟩] "admin" "longpassword"
      = .error .invalidCredentials ∧
    authenticate demoHash [⟨"ALL", "admin", demoHash "rightpw", "admin"⟩] "admin" "longpassword"
      = .error .invalidCredentials := by
  decide

/-- C4 (amended): with a password shorter than 8 characters the creation
never succeeds (the registry is never mutated, whatever the company and
username are), and it fails with the weak-password error whenever company
and username are non-empty and the repeated passwords match; with an empty
company or username the missing-field error fires first. -/
theorem create_client_user_weak_password (hashFn : String → String) (df : Registry)
    (c u p1 p2 : String) (hshort : p1.length < 8) :
    succeeded (create_client_user hashFn df c u p1 p2) = false ∧
    (c ≠ "" → u ≠ "" → p1 = p2 →
      create_client_user hashFn df c u p1 p2 = .error .weakPassword) := by
  constructor
  · unfold create_client_user
    by_cases h1 : (c == "" || u == "") = true
    · simp [h1, succeeded]
    · simp only [Bool.not_eq_true] at h1
      by_cases h2 : (p1 != p2) = true
      · simp [h1, h2, succeeded]
      · simp only [Bool.not_eq_true] at h2
        simp [h1, h2, hshort, succeeded]
  · intro hc hu hpp
    have hcb : (c == "") = false := by simpa using hc
    have hub : (u == "") = false := by simpa using hu
    subst hpp
    simp [create_client_user, hcb, hub, hshort]

/-- Witness for C4 at a weak password on a fresh registry. -/
theorem create_client_user_weak_password_witness :
    ("pw" : String).length < 8 ∧
    succeeded (create_client_user demoHash [] "Numia" "numia_admin" "pw" "pw") = false ∧
    create_client_user demoHash [] "Numia" "numia_admin" "pw" "pw"
      = .error .weakPassword := by
  refine ⟨by decide, ?_, ?_⟩
  · exact (create_client_user_weak_password demoHash [] "Numia" "numia_admin" "pw" "pw"
      (by decide)).1
  · exact (create_client_user_weak_password demoHash [] "Numia" "numia_admin" "pw" "pw"
      (by decide)).2 (by decide) (by decide) rfl

/-- C4 counterexample: with an empty company the short-password call fails
with the missing-field error, not the weak-password error the claim states
for every company. -/
theorem create_client_user_weak_password_not_universal :
    create_client_user demoHash [] "" "user1" "pw" "pw" = .error .missingField ∧
    create_client_user demoHash [] "" "user1" "pw" "pw" ≠ .error .weakPassword := by
  decide

/-- C10: the `meta.company` field written into the JSON artifact is the
original, unsanitized company string; only the directory path uses the
sanitized form, so two distinct companies whose sanitized names collide
share a directory yet stay distinguishable by their artifact contents. -/
theorem save_submission_meta_company_raw {α : Type} (c1 c2 u : String) (y : Int)
    (q : String) (m : Int) (payload : List (String × α)) (ts : String)
    (hne : c1 ≠ c2) (hcol : safe_name c1 = safe_name c2) :
    (save_submission α c1 u y q m payload ts).jsonContent.meta.company = c1 ∧
    (save_submission α c2 u y q m payload ts).jsonContent.meta.company = c2 ∧
    (save_submission α c1 u y q m payload ts).dir =
      (save_submission α c2 u y q m payload ts).dir ∧
    (save_submission α c1 u y q m payload ts).jsonContent ≠
      (save_submission α c2 u y q m payload ts).jsonContent := by
  refine ⟨rfl, rfl, ?_, ?_⟩
  · simp [save_submission, build_period_path, company_dir, hcol]
  · intro h
    exact hne (congrArg (fun s => s.meta.company) h)

/-- Witness for C10: `"A B"` and `"A/B"` sanitize to the same directory but
their JSON records keep the two original names. -/
theorem save_submission_meta_company_raw_witness :
    ("A B" : String) ≠ "A/B" ∧ safe_name "A B" = safe_name "A/B" ∧
    ((save_submission Nat "A B" "u" 2024 "Q1" 1 [("Revenue", 1000)] "T").jsonContent.meta.company = "A B" ∧
     (save_submission Nat "A/B" "u" 2024 "Q1" 1 [("Revenue", 1000)] "T").jsonContent.meta.company = "A/B" ∧
     (save_submission Nat "A B" "u" 2024 "Q1" 1 [("Revenue", 1000)] "T").dir =
       (save_submission Nat "A/B" "u" 2024 "Q1" 1 [("Revenue", 1000)] "T").dir ∧
     (save_submission Nat "A B" "u" 2024 "Q1" 1 [("Revenue", 1000)] "T").jsonContent ≠
       (save_submission Nat "A/B" "u" 2024 "Q1" 1 [("Revenue", 1000)] "T").jsonContent) :=
  ⟨by decide, by decide,
    save_submission_meta_company_raw "A B" "A/B" "u" 2024 "Q1" 1 [("Revenue", 1000)] "T"
      (by decide) (by decide)⟩

/-- C6: one `save_submission` call writes exactly two artifacts, both under
the period directory and sharing the timestamp stem `submission_<ts>`: the
JSON record `{meta := {company, user, year, quarter, month_in_q,
submitted_at_utc, schema_version}, metrics := payload}` (its metric list IS
the payload, value for value) and the CSV with one `(metric, value)` row
per payload entry. -/
theorem save_submission_two_artifacts {α : Type} (fs : FS α) (c u : String)
    (y : Int) (q : String) (m : Int) (payload : List (String × α)) (ts : String) :
    run_save_submission α fs c u y q m payload ts =
      ((save_submission α c u y q m payload ts).csvPath,
        .csv (save_submission α c u y q m payload ts).csvContent) ::
      ((save_submission α c u y q m payload ts).jsonPath,
        .json (save_submission α c u y q m payload ts).jsonContent) :: fs ∧
    (save_submission α c u y q m payload ts).jsonPath =
      build_period_path c y q m ++ ["submission_" ++ ts ++ ".json"] ∧
    (save_submission α c u y q m payload ts).csvPath =
      build_period_path c y q m ++ ["submission_" ++ ts ++ ".csv"] ∧
    (save_submission α c u y q m payload ts).jsonContent.meta =
      ⟨c, u, y, q, m, ts, "mvp-1"⟩ ∧
    (save_submission α c u y q m payload ts).jsonContent.metrics = payload ∧
    (save_submission α c u y q m payload ts).csvContent = payload := by
  refine ⟨rfl, rfl, rfl, rfl, rfl, ?_⟩
  simp [save_submission]

/-- C7: `save_submission` is append-only.  Two sequential calls for the same
company and period whose timestamps differ write artifact pairs at distinct
paths, and after the second call the first call's JSON and CSV artifacts
still read back exactly as written. -/
theorem save_submission_append_only {α : Type} (fs : FS α) (c u : String)
    (y : Int) (q : String) (m : Int) (pl1 pl2 : List (String × α))
    (ts1 ts2 : String) (hts : ts1 ≠ ts2) :
    (save_submission α c u y q m pl1 ts1).jsonPath ≠
      (save_submission α c u y q m pl2 ts2).jsonPath ∧
    (save_submission α c u y q m pl1 ts1).csvPath ≠
      (save_submission α c u y q m pl2 ts2).csvPath ∧
    fsRead (run_save_submission α (run_save_submission α fs c u y q m pl1 ts1)
        c u y q m pl2 ts2) (save_submission α c u y q m pl1 ts1).jsonPath
      = some (.json (save_submission α c u y q m pl1 ts1).jsonContent) ∧
    fsRead (run_save_submission α (run_save_submission α fs c u y q m pl1 ts1)
        c u y q m pl2 ts2) (save_submission α c u y q m pl1 ts1).csvPath
      = some (.csv (save_submission α c u y q m pl1 ts1).csvContent) := by
  have hjj : (save_submission α c u y q m pl1 ts1).jsonPath ≠
      (save_submission α c u y q m pl2 ts2).jsonPath :=
    path_ne_of_filename_ne (fun h => hts (submission_json_name_inj h))
  have hcc : (save_submission α c u y q m pl1 ts1).csvPath ≠
      (save_submission α c u y q m pl2 ts2).csvPath :=
    path_ne_of_filename_ne (fun h => hts (submission_csv_name_inj h))
  have hjc1 : (save_submission α c u y q m pl1 ts1).jsonPath ≠
      (save_submission α c u y q m pl1 ts1).csvPath :=
    path_ne_of_filename_ne (str_json_ne_csv ("submission_" ++ ts1) ("submission_" ++ ts1))
  have hjc2 : (save_submission α c u y q m pl1 ts1).jsonPath ≠
      (save_submission α c u y q m pl2 ts2).csvPath :=
    path_ne_of_filename_ne (str_json_ne_csv ("submission_" ++ ts1) ("submission_" ++ ts2))
  refine ⟨hjj, hcc, ?_, ?_⟩
  · show fsRead (fsWrite (fsWrite (run_save_submission α fs c u y q m pl1 ts1)
        (save_submission α c u y q m pl2 ts2).jsonPath
        (.json (save_submission α c u y q m pl2 ts2).jsonContent))
        (save_submission α c u y q m pl2 ts2).csvPath
        (.csv (save_submission α c u y q m pl2 ts2).csvContent))
      (save_submission α c u y q m pl1 ts1).jsonPath = _
    rw [fsRead_write_other _ _ hjc2, fsRead_write_other _ _ hjj]
    show fsRead (fsWrite (fsWrite fs
        (save_submission α c u y q m pl1 ts1).jsonPath
        (.json (save_submission α c u y q m pl1 ts1).jsonContent))
        (save_submission α c u y q m pl1 ts1).csvPath
        (.csv (save_submission α c u y q m pl1 ts1).csvContent))
      (save_submission α c u y q m pl1 ts1).jsonPath = _
    rw [fsRead_write_other _ _ hjc1, fsRead_write_self]
  · have hcj2 : (save_submission α c u y q m pl1 ts1).csvPath ≠
        (save_submission α c u y q m pl2 ts2).jsonPath :=
      fun h => str_json_ne_csv ("submission_" ++ ts2) ("submission_" ++ ts1)
        (by simpa using List.append_cancel_left h.symm)
    show fsRead (fsWrite (fsWrite (run_save_submission α fs c u y q m pl1 ts1)
        (save_submission α c u y q m pl2 ts2).jsonPath
        (.json (save_submission α c u y q m pl2 ts2).jsonContent))
        (save_submission α c u y q m pl2 ts2).csvPath
        (.csv (save_submission α c u y q m pl2 ts2).csvContent))
      (save_submission α c u y q m pl1 ts1).csvPath = _
    rw [fsRead_write_other _ _ hcc, fsRead_write_other _ _ hcj2]
    show fsRead (fsWrite (fsWrite fs
        (save_submission α c u y q m pl1 ts1).jsonPath
        (.json (save_submission α c u y q m pl1 ts1).jsonContent))
        (save_submission α c u y q m pl1 ts1).csvPath
        (.csv (save_submission α c u y q m pl1 ts1).csvContent))
      (save_submission α c u y q m pl1 ts1).csvPath = _
    rw [fsRead_write_self]

/-- Witness for C7 at two concrete second-apart timestamps. -/
theorem save_submission_append_only_witness :
    ("20240101T000000Z" : String) ≠ "20240101T000001Z" ∧
    ((save_submission Nat "Acme" "u" 2024 "Q1" 1 [("Revenue", 1000)] "20240101T000000Z").jsonPath ≠
      (save_submission Nat "Acme" "u" 2024 "Q1" 1 [("Revenue", 2000)] "20240101T000001Z").jsonPath ∧
    (save_submission Nat "Acme" "u" 2024 "Q1" 1 [("Revenue", 1000)] "20240101T000000Z").csvPath ≠
      (save_submission Nat "Acme" "u" 2024 "Q1" 1 [("Revenue", 2000)] "20240101T000001Z").csvPath ∧
    fsRead (run_save_submission Nat
        (run_save_submission Nat [] "Acme" "u" 2024 "Q1" 1 [("Revenue", 1000)] "20240101T000000Z")
        "Acme" "u" 2024 "Q1" 1 [("Revenue", 2000)] "20240101T000001Z")
      (save_submission Nat "Acme" "u" 2024 "Q1" 1 [("Revenue", 1000)] "20240101T000000Z").jsonPath
      = some (.json (save_submission Nat "Acme" "u" 2024 "Q1" 1 [("Revenue", 1000)] "20240101T000000Z").jsonContent) ∧
    fsRead (run_save_submission Nat
        (run_save_submission Nat [] "Acme" "u" 2024 "Q1" 1 [("Revenue", 1000)] "20240101T000000Z")
        "Acme" "u" 2024 "Q1" 1 [("Revenue", 2000)] "20240101T000001Z")
      (save_submission Nat "Acme" "u" 2024 "Q1" 1 [("Revenue", 1000)] "20240101T000000Z").csvPath
      = some (.csv (save_submission Nat "Acme" "u" 2024 "Q1" 1 [("Revenue", 1000)] "20240101T000000Z").csvContent)) :=
  ⟨by decide,
    save_submission_append_only [] "Acme" "u" 2024 "Q1" 1 [("Revenue", 1000)]
      [("Revenue", 2000)] "20240101T000000Z" "20240101T000001Z" (by decide)⟩

/-- C9: `load_users` is total on a missing or partially shaped store.  The
returned frame always carries the four canonical columns and no null cell
(every NaN is filled with the empty string); a missing store is persisted as
the empty registry with the canonical columns and returned as such; and a
store lacking canonical columns gets them synthesized with empty-string
cells, as on the concrete one-column store shown. -/
theorem load_users_total_shape (store : Option UsersCsv) :
    "company" ∈ (load_users store).1.cols ∧
    "username" ∈ (load_users store).1.cols ∧
    "password_hash" ∈ (load_users store).1.cols ∧
    "role" ∈ (load_users store).1.cols ∧
    (load_users store).1.rows.all (fun row => row.all (fun cell => cell.isSome)) = true ∧
    load_users none = (⟨canonicalCols, []⟩, ⟨canonicalCols, []⟩) ∧
    load_users (some ⟨["username"], [[some "admin"]]⟩) =
      (⟨["username", "company", "password_hash", "role"],
        [[some "admin", some "", some "", some ""]]⟩,
       ⟨["username"], [[some "admin"]]⟩) := by
  have hmem : ∀ f : UsersCsv, "company" ∈ (ensureCols f).cols ∧
      "username" ∈ (ensureCols f).cols ∧ "password_hash" ∈ (ensureCols f).cols ∧
      "role" ∈ (ensureCols f).cols := by
    intro f
    have hself : ∀ (g : UsersCsv) (d : String), d ∈ (addColIfMissing g d).cols := by
      intro g d
      unfold addColIfMissing
      by_cases h : d ∈ g.cols
      · simp [h]
      · simp [h]
    have hmono : ∀ (g : UsersCsv) (d e : String), d ∈ g.cols →
        d ∈ (addColIfMissing g e).cols := by
      intro g d e hd
      unfold addColIfMissing
      by_cases h : e ∈ g.cols
      · simpa [h]
      · simp [h, List.mem_append]
        exact Or.inl hd
    show _ ∈ (addColIfMissing (addColIfMissing (addColIfMissing
        (addColIfMissing f "company") "username") "password_hash") "role").cols ∧ _
    exact ⟨hmono _ _ _ (hmono _ _ _ (hmono _ _ _ (hself _ _))),
      hmono _ _ _ (hmono _ _ _ (hself _ _)),
      hmono _ _ _ (hself _ _), hself _ _⟩
  have hnn : ∀ f : UsersCsv,
      (fillna f).rows.all (fun row => row.all (fun cell => cell.isSome)) = true := by
    intro f
    rw [List.all_eq_true]
    intro row hrow
    rw [List.all_eq_true]
    intro cell hcell
    simp only [fillna, List.mem_map] at hrow
    obtain ⟨row', _, rfl⟩ := hrow
    simp only [List.mem_map] at hcell
    obtain ⟨cell', _, rfl⟩ := hcell
    rfl
  cases store with
  | none =>
    refine ⟨?_, ?_, ?_, ?_, hnn _, by decide, by decide⟩
    · exact (hmem _).1
    · exact (hmem _).2.1
    · exact (hmem _).2.2.1
    · exact (hmem _).2.2.2
  | some f =>
    refine ⟨?_, ?_, ?_, ?_, hnn _, by decide, by decide⟩
    · exact (hmem _).1
    · exact (hmem _).2.1
    · exact (hmem _).2.2.1
    · exact (hmem _).2.2.2

end Cometa
